import Mathlib

/-!
Verification of the tngame terminal rendering engine.

Shallow embedding of `src/tngame/telnet.py` (frame-buffer differ,
snow-particle field, input handling), `src/tngame/cowsay.py`,
`src/tngame/utils.py` and `src/relay.py`.  Machine floats of the Python
source are modelled as exact rationals; byte matrices as functions from
coordinates to cells; the random module as explicitly passed draws
constrained to the intervals the source requests.
-/

set_option maxRecDepth 8000

namespace Tngame

/-- An RGB color triple, as stored in the first three ubyte planes of the
frame buffer. -/
abbrev Color := Nat × Nat × Nat

/-- One frame-buffer cell: the `4`-byte vector `buf[x, y, 0:4]` of the
source, holding red, green, blue and the character code. -/
structure Cell where
  r : Nat
  g : Nat
  b : Nat
  ch : Nat
deriving DecidableEq

/-- The color planes `buf[x, y, 0:3]` of a cell. -/
def Cell.color (c : Cell) : Color := (c.r, c.g, c.b)

/-- A frame buffer, `np.zeros((width, height, 4))` in the source, indexed
by `x` then `y`. -/
abbrev Buf := Nat → Nat → Cell

/-- A zeroed cell, as produced by `np.zeros`. -/
def blankCell : Cell := ⟨0, 0, 0, 0⟩

/-- The all-zero buffer: the state after `buf[:, :, :] = 0`. -/
def blankBuf : Buf := fun _ _ => blankCell

/-- Cursor-position escape `\x1b[{y + 1};{x + 1}H` emitted by
`draw_buf_jit` for the cell at `(x, y)`. -/
def cupEsc (x y : Nat) : String :=
  "\x1b[" ++ toString (y + 1) ++ ";" ++ toString (x + 1) ++ "H"

/-- Color-set escape `\x1b[38;2;{r};{g};{b}m` emitted by `draw_buf_jit`. -/
def sgrEsc (c : Color) : String :=
  "\x1b[38;2;" ++ toString c.1 ++ ";" ++ toString c.2.1 ++ ";" ++ toString c.2.2 ++ "m"

/-- The character `draw_buf_jit` displays for a cell: `char = buf[x, y, 3]`
followed by `if char == 0: char = 32`. -/
def dispChar (c : Cell) : Nat := if c.ch = 0 then 32 else c.ch

/-- One loop body of `draw_buf_jit` at cell `(x, y)`: given the running
`last_color`, returns the string appended to `char_buf` for this cell and
the new `last_color`.  Mirrors the source exactly: the first branch fires
when the cell color differs from `last_color` AND from
`last_buf[x, y, 0:3]`, emitting cursor + color + glyph and updating
`last_color`; the second branch fires when the displayed character differs
from `last_buf[x, y, 3]`, emitting cursor + glyph. -/
def cellEmit (lastBuf buf : Buf) (lastColor : Color) (x y : Nat) : String × Color :=
  let c := buf x y
  let ch := dispChar c
  if c.color ≠ lastColor ∧ c.color ≠ (lastBuf x y).color then
    (cupEsc x y ++ sgrEsc c.color ++ String.singleton (Char.ofNat ch), c.color)
  else if ch ≠ (lastBuf x y).ch then
    (cupEsc x y ++ String.singleton (Char.ofNat ch), lastColor)
  else ("", lastColor)

/-- Fold step of the `draw_buf_jit` scan: state is `(last_color, char_buf)`. -/
def drawCell (lastBuf buf : Buf) (st : Color × String) (x y : Nat) : Color × String :=
  ((cellEmit lastBuf buf st.1 x y).2, st.2 ++ (cellEmit lastBuf buf st.1 x y).1)

/-- The running color register `last_color = np.zeros(3)` starts at black. -/
def zeroColor : Color := (0, 0, 0)

/-- The full `draw_buf_jit` scan: `for x in range(width): for y in
range(height)`, starting from `last_color = np.zeros(3)` and an empty
`char_buf`. -/
def drawPass (width height : Nat) (lastBuf buf : Buf) : Color × String :=
  (List.range width).foldl
    (fun st x => (List.range height).foldl (fun st2 y => drawCell lastBuf buf st2 x y) st)
    (zeroColor, "")

/-- `draw_buf_jit(width, height, last_buf, buf)`: returns the emitted
escape string together with the buffers after the flush
(`last_buf[:] = buf[:]; buf[:, :, :] = 0`). -/
def draw_buf_jit (width height : Nat) (lastBuf buf : Buf) : String × Buf × Buf :=
  ((drawPass width height lastBuf buf).2, buf, blankBuf)

/-- Boolean test that `pat` is an initial run of `l`. -/
def leadsWith : List Char → List Char → Bool
  | [], _ => true
  | _ :: _, [] => false
  | a :: as, b :: bs => a == b && leadsWith as bs

/-- Boolean test that `pat` occurs contiguously somewhere inside `l`. -/
def hasSeg (pat : List Char) : List Char → Bool
  | [] => leadsWith pat []
  | b :: bs => leadsWith pat (b :: bs) || hasSeg pat bs

/-- Previous buffer for the C1 counterexample: cell `(0,0)` is a black
`'a'`, cell `(1,0)` is a `'b'` colored `(9,9,9)`. -/
def c1LastBuf : Buf := fun x _ => if x = 0 then ⟨0, 0, 0, 97⟩ else ⟨9, 9, 9, 98⟩

/-- Current buffer for the C1 counterexample: cell `(0,0)` is an `'a'`
colored `(1,2,3)`, cell `(1,0)` is a `'b'` recolored to the same
`(1,2,3)` — glyph unchanged, color changed. -/
def c1Buf : Buf := fun x _ => if x = 0 then ⟨1, 2, 3, 97⟩ else ⟨1, 2, 3, 98⟩

/-- C1 counterexample: on a 2×1 frame, cell `(1,0)` has an unchanged glyph
and a changed color, yet because its color `(1,2,3)` equals the color most
recently emitted in the pass (at cell `(0,0)`), `draw_buf_jit` emits
nothing at all for it — the output does not even contain the
cursor-position escape for `(1,0)`, contradicting the claim that such a
cell always re-emits glyph plus color. -/
theorem c1_counterexample :
    (c1Buf 1 0).ch = (c1LastBuf 1 0).ch ∧
    (c1Buf 1 0).color ≠ (c1LastBuf 1 0).color ∧
    hasSeg (cupEsc 1 0).data (draw_buf_jit 2 1 c1LastBuf c1Buf).1.data = false := by
  decide

/-- C1 (amended): for a cell whose (nonzero) glyph is unchanged but whose
color differs from the previous buffer's color, the diff pass emits
cursor-position + color-set + glyph when the color also differs from the
color most recently emitted in this pass, and emits nothing at all for
that cell (neither cursor-position nor glyph) when the color equals the
most recently emitted color. -/
theorem c1_amended (lastBuf buf : Buf) (lc : Color) (x y : Nat)
    (hch : (buf x y).ch = (lastBuf x y).ch) (hnz : (buf x y).ch ≠ 0)
    (hcol : (buf x y).color ≠ (lastBuf x y).color) :
    ((buf x y).color ≠ lc →
      (cellEmit lastBuf buf lc x y).1 =
        cupEsc x y ++ sgrEsc (buf x y).color ++
          String.singleton (Char.ofNat ((buf x y).ch))) ∧
    ((buf x y).color = lc → (cellEmit lastBuf buf lc x y).1 = "") := by
  constructor
  · intro hne
    simp [cellEmit, dispChar, hnz, hne, hcol]
  · intro heq
    have hnz2 : (lastBuf x y).ch ≠ 0 := hch ▸ hnz
    simp [cellEmit, dispChar, hnz, hnz2, heq, hch]

/-- C1 witness: the amended theorem instantiated at the concrete 2×1
counterexample buffers, at cell `(1,0)` with the pass's most recently
emitted color `(1,2,3)`. -/
theorem c1_amended_witness :
    ((c1Buf 1 0).color ≠ (1, 2, 3) →
      (cellEmit c1LastBuf c1Buf (1, 2, 3) 1 0).1 =
        cupEsc 1 0 ++ sgrEsc (c1Buf 1 0).color ++
          String.singleton (Char.ofNat ((c1Buf 1 0).ch))) ∧
    ((c1Buf 1 0).color = (1, 2, 3) → (cellEmit c1LastBuf c1Buf (1, 2, 3) 1 0).1 = "") :=
  c1_amended c1LastBuf c1Buf (1, 2, 3) 1 0 (by decide) (by decide) (by decide)

/-- Appending the empty string on the right is the identity. -/
theorem str_append_empty (s : String) : s ++ "" = s :=
  String.ext (by rw [String.data_append]; exact List.append_nil _)

/-- Appending the empty string on the left is the identity. -/
theorem str_empty_append (s : String) : "" ++ s = s :=
  String.ext (by rw [String.data_append]; rfl)

/-- String append is associative. -/
theorem str_append_assoc (a b c : String) : a ++ b ++ c = a ++ (b ++ c) :=
  String.ext (by simp [String.data_append])

/-- A concatenation of strings is empty exactly when both halves are. -/
theorem str_append_eq_empty (a b : String) : a ++ b = "" ↔ a = "" ∧ b = "" := by
  constructor
  · intro h
    have h2 : (a ++ b).data = [] := by rw [h]
    rw [String.data_append] at h2
    rcases List.append_eq_nil.mp h2 with ⟨ha, hb⟩
    exact ⟨String.ext ha, String.ext hb⟩
  · rintro ⟨rfl, rfl⟩
    rfl

/-- Concatenation of a list of strings, in order. -/
def strConcat (l : List String) : String :=
  List.foldr (fun a b => a ++ b) "" l

/-- A cursor-position escape is never the empty string. -/
theorem cupEsc_ne_empty (x y : Nat) : cupEsc x y ≠ "" := by
  unfold cupEsc
  intro h
  have := ((str_append_eq_empty _ _).mp h).2
  exact absurd this (by decide)

/-- A concatenation of a list of strings is empty exactly when every
element is empty. -/
theorem strConcat_eq_empty (l : List String) : strConcat l = "" ↔ ∀ s ∈ l, s = "" := by
  induction l with
  | nil => simp [strConcat]
  | cons a l ih =>
    rw [show strConcat (a :: l) = a ++ strConcat l from rfl, str_append_eq_empty, ih]
    simp

/-- What the differ appends for a cell during a pass whose current buffer
has just been cleared to zero: a cursor move plus a space whenever the
flushed glyph byte is not 32, and nothing otherwise. -/
def eraseEmit (lb : Buf) (x y : Nat) : String :=
  if 32 ≠ (lb x y).ch then cupEsc x y ++ String.singleton (Char.ofNat 32) else ""

/-- On a zeroed current buffer the per-cell step of the differ never
changes the running color and appends exactly `eraseEmit`. -/
theorem cellEmit_blank (lb : Buf) (x y : Nat) :
    cellEmit lb blankBuf zeroColor x y = (eraseEmit lb x y, zeroColor) := by
  unfold cellEmit eraseEmit dispChar blankBuf blankCell Cell.color zeroColor
  simp
  split_ifs <;> rfl

/-- The erase emission for a cell is empty exactly when the flushed glyph
byte is the space character. -/
theorem eraseEmit_eq_empty (lb : Buf) (x y : Nat) :
    eraseEmit lb x y = "" ↔ (lb x y).ch = 32 := by
  unfold eraseEmit
  split_ifs with h
  · constructor
    · intro habs
      exact absurd ((str_append_eq_empty _ _).mp habs).1 (cupEsc_ne_empty x y)
    · intro h32
      exact absurd h32.symm h
  · push_neg at h
    simp [← h]

/-- A column scan of the differ over a zeroed current buffer keeps the
running color at zero and appends the column's erase emissions. -/
theorem fold_col (lb : Buf) (x : Nat) :
    ∀ (ys : List Nat) (s : String),
      ys.foldl (fun st2 y => drawCell lb blankBuf st2 x y) (zeroColor, s)
        = (zeroColor, s ++ strConcat (ys.map (eraseEmit lb x)))
  | [], s => by simp [strConcat, str_append_empty]
  | y :: ys, s => by
    rw [List.foldl_cons]
    have hc : drawCell lb blankBuf (zeroColor, s) x y = (zeroColor, s ++ eraseEmit lb x y) := by
      show ((cellEmit lb blankBuf zeroColor x y).2, s ++ (cellEmit lb blankBuf zeroColor x y).1) = _
      rw [cellEmit_blank]
    rw [hc, fold_col lb x ys (s ++ eraseEmit lb x y)]
    rw [show strConcat ((y :: ys).map (eraseEmit lb x))
          = eraseEmit lb x y ++ strConcat (ys.map (eraseEmit lb x)) from rfl]
    rw [str_append_assoc]

/-- The full scan of the differ over a zeroed current buffer appends, for
each column, that column's erase emissions. -/
theorem fold_grid (lb : Buf) (h : Nat) :
    ∀ (xs : List Nat) (s : String),
      xs.foldl
          (fun st x => (List.range h).foldl (fun st2 y => drawCell lb blankBuf st2 x y) st)
          (zeroColor, s)
        = (zeroColor,
            s ++ strConcat (xs.map (fun x => strConcat ((List.range h).map (eraseEmit lb x)))))
  | [], s => by simp [strConcat, str_append_empty]
  | x :: xs, s => by
    rw [List.foldl_cons, fold_col lb x (List.range h) s, fold_grid lb h xs _]
    rw [show strConcat ((x :: xs).map (fun x => strConcat ((List.range h).map (eraseEmit lb x))))
          = strConcat ((List.range h).map (eraseEmit lb x))
            ++ strConcat (xs.map (fun x => strConcat ((List.range h).map (eraseEmit lb x)))) from rfl]
    rw [str_append_assoc]

/-- C8 counterexample: starting from a fresh pair of zeroed buffers,
calling `draw_buf_jit` and then calling it again on the flushed state —
with no intervening paint — emits `\x1b[1;1H ` on the second call, not
the empty sequence: the differ re-emits a space for every cell whose
stored glyph byte (0 for blank) differs from 32. -/
theorem c8_counterexample :
    (draw_buf_jit 1 1 (draw_buf_jit 1 1 blankBuf blankBuf).2.1
        (draw_buf_jit 1 1 blankBuf blankBuf).2.2).1 = "\x1b[1;1H " ∧
    ("\x1b[1;1H " : String) ≠ "" := by
  decide

/-- C8 (amended): the flush does leave the previous buffer equal to the
flushed current buffer and resets the current buffer to blank, but a
second `draw_buf_jit` call with no intervening paint emits a cursor move
plus a space for every cell whose flushed glyph byte is not 32; its output
is empty exactly when every cell of the flushed buffer stored the space
character (blank cells store 0, so a blank flushed frame still re-emits
spaces everywhere). -/
theorem c8_amended (w h : Nat) (lb cb : Buf) :
    (draw_buf_jit w h lb cb).2.1 = cb ∧
    (draw_buf_jit w h lb cb).2.2 = blankBuf ∧
    ((draw_buf_jit w h (draw_buf_jit w h lb cb).2.1 (draw_buf_jit w h lb cb).2.2).1 = ""
      ↔ ∀ x ∈ List.range w, ∀ y ∈ List.range h, (cb x y).ch = 32) := by
  refine ⟨rfl, rfl, ?_⟩
  have hpass : (draw_buf_jit w h cb blankBuf).1
      = strConcat ((List.range w).map
          (fun x => strConcat ((List.range h).map (eraseEmit cb x)))) := by
    show (drawPass w h cb blankBuf).2 = _
    unfold drawPass
    rw [fold_grid cb h (List.range w) ""]
    rw [str_empty_append]
  show (draw_buf_jit w h cb blankBuf).1 = "" ↔ _
  rw [hpass, strConcat_eq_empty]
  constructor
  · intro H x hx y hy
    have h1 := H _ (List.mem_map_of_mem _ hx)
    have h2 := (strConcat_eq_empty _).mp h1 _ (List.mem_map_of_mem _ hy)
    exact (eraseEmit_eq_empty cb x y).mp h2
  · intro H s hs
    rcases List.mem_map.mp hs with ⟨x, hx, rfl⟩
    refine (strConcat_eq_empty _).mpr ?_
    intro t ht
    rcases List.mem_map.mp ht with ⟨y, hy, rfl⟩
    exact (eraseEmit_eq_empty cb x y).mpr (H x hx y hy)

/-- An all-space 1×1 buffer, the one shape of flushed frame whose second
diff pass is genuinely empty. -/
def spaceBuf : Buf := fun _ _ => ⟨0, 0, 0, 32⟩

/-- C8 witness: the amended theorem instantiated on a 1×1 frame whose
current buffer holds a space character. -/
theorem c8_amended_witness :
    (draw_buf_jit 1 1 blankBuf spaceBuf).2.1 = spaceBuf ∧
    (draw_buf_jit 1 1 blankBuf spaceBuf).2.2 = blankBuf ∧
    ((draw_buf_jit 1 1 (draw_buf_jit 1 1 blankBuf spaceBuf).2.1
        (draw_buf_jit 1 1 blankBuf spaceBuf).2.2).1 = ""
      ↔ ∀ x ∈ List.range 1, ∀ y ∈ List.range 1, (spaceBuf x y).ch = 32) :=
  c8_amended 1 1 blankBuf spaceBuf

/-- Snow particles per pixel on screen: `SNOW_DENSITY = 0.05`. -/
def SNOW_DENSITY : ℚ := 1 / 20

/-- Snow fall speed in pixels per second: `SNOW_SPEED = 8`. -/
def SNOW_SPEED : ℚ := 8

/-- Snow x-velocity randomization factor: `SNOW_X_RAND = 0.8`. -/
def SNOW_X_RAND : ℚ := 4 / 5

/-- The fixed color palette `COLORS` (`#FFFFFF`, `#F6AAB7`, `#55CDFD`),
written in source-set order. -/
def COLORS : List Color := [(255, 255, 255), (246, 170, 183), (85, 205, 253)]

/-- One snow particle, the `SnowParticle` dataclass of the source.  The
float position and velocity are modelled as exact rationals. -/
structure SnowParticle where
  last_x : Int
  last_y : Int
  x : ℚ
  y : ℚ
  xv : ℚ
  yv : ℚ
  color : Color
deriving DecidableEq

/-- `rand_velocity()`, given the two samples the source draws:
`u1 = random.uniform(-SNOW_X_RAND, SNOW_X_RAND)` and
`u2 = random.uniform(1, 2)`; it returns `(u1 * SNOW_SPEED, u2 * SNOW_SPEED)`. -/
def rand_velocity (u1 u2 : ℚ) : ℚ × ℚ :=
  (u1 * SNOW_SPEED, u2 * SNOW_SPEED)

/-- The per-particle body of `update_snow(dt)`: advance by `velocity * dt`,
clamp x with `p.x = max(1.0, min(width - 1.0, p.x))`, and on
`p.y >= height - 1` reset y to 1 and install the freshly drawn velocity
`reset` (the value `rand_velocity()` returns at that point).  `update_snow`
applies this to every particle of the field in order. -/
def update_snow_step (width height : Nat) (dt : ℚ) (reset : ℚ × ℚ)
    (p : SnowParticle) : SnowParticle :=
  let x1 := p.x + p.xv * dt
  let y1 := p.y + p.yv * dt
  let x2 := max 1 (min ((width : ℚ) - 1) x1)
  if y1 ≥ (height : ℚ) - 1 then
    { p with x := x2, y := 1, xv := reset.1, yv := reset.2 }
  else
    { p with x := x2, y := y1 }

/-- A particle of a 10×10 screen sitting at `x = 0` (left of the clamp
range) and `y = 20` (below the reset threshold), with zero velocity. -/
def c2Particle : SnowParticle := ⟨0, 0, 0, 20, 0, 0, (255, 255, 255)⟩

/-- C2 counterexample: with `dt = 0` the advance step still moves this
particle — its x is clamped from 0 to 1 and its y is reset from 20 to 1 —
so a zero time step does not leave every particle position unchanged. -/
theorem c2_counterexample :
    (update_snow_step 10 10 0 (rand_velocity 0 1) c2Particle).x ≠ c2Particle.x ∧
    (update_snow_step 10 10 0 (rand_velocity 0 1) c2Particle).y ≠ c2Particle.y := by
  norm_num [update_snow_step, rand_velocity, c2Particle, SNOW_SPEED]

/-- C2 (amended): a `dt = 0` advance leaves the position of a particle
unchanged provided the particle already lies in the clamp range
`1 ≤ x ≤ width - 1` and strictly above the reset threshold
`y < height - 1`; positions outside that region are clamped or reset even
when no time has passed. -/
theorem c2_amended (width height : Nat) (r : ℚ × ℚ) (p : SnowParticle)
    (hx1 : 1 ≤ p.x) (hx2 : p.x ≤ (width : ℚ) - 1) (hy : p.y < (height : ℚ) - 1) :
    (update_snow_step width height 0 r p).x = p.x ∧
    (update_snow_step width height 0 r p).y = p.y := by
  unfold update_snow_step
  simp only [mul_zero, add_zero]
  rw [if_neg (not_le.mpr hy)]
  constructor
  · show max 1 (min ((width : ℚ) - 1) p.x) = p.x
    rw [min_eq_right hx2, max_eq_right hx1]
  · rfl

/-- C2 witness: a particle of a 10×10 screen at `(2, 3)` is left in place
by a `dt = 0` advance. -/
theorem c2_amended_witness :
    (update_snow_step 10 10 0 (rand_velocity 0 1) ⟨0, 0, 2, 3, 5, 7, (0, 0, 0)⟩).x = 2 ∧
    (update_snow_step 10 10 0 (rand_velocity 0 1) ⟨0, 0, 2, 3, 5, 7, (0, 0, 0)⟩).y = 3 :=
  c2_amended 10 10 (rand_velocity 0 1) ⟨0, 0, 2, 3, 5, 7, (0, 0, 0)⟩
    (by norm_num) (by norm_num) (by norm_num)

/-- The advanced particle's x is always the clamp of the moved x,
whichever branch of the reset test is taken. -/
theorem update_snow_step_x (width height : Nat) (dt : ℚ) (r : ℚ × ℚ) (p : SnowParticle) :
    (update_snow_step width height dt r p).x
      = max 1 (min ((width : ℚ) - 1) (p.x + p.xv * dt)) := by
  unfold update_snow_step
  dsimp only
  split <;> rfl

/-- When the moved y reaches the threshold `height - 1`, the step resets
y to 1 and installs the fresh velocity. -/
theorem update_snow_step_reset (width height : Nat) (dt : ℚ) (r : ℚ × ℚ) (p : SnowParticle)
    (h : (height : ℚ) - 1 ≤ p.y + p.yv * dt) :
    (update_snow_step width height dt r p).y = 1 ∧
    (update_snow_step width height dt r p).xv = r.1 ∧
    (update_snow_step width height dt r p).yv = r.2 := by
  unfold update_snow_step
  dsimp only
  split
  · exact ⟨rfl, rfl, rfl⟩
  · next h2 => exact absurd h h2

/-- C4: every advanced particle's x lands in `[1, width - 1]`, and a
particle whose y has reached the bottom boundary (`rows`, i.e. `height`)
is reset by the advance to the top row of the snow field (row 1, the same
inset the x-clamp uses) with a new velocity inside the configured ranges:
xv in `[-SNOW_X_RAND*SNOW_SPEED, SNOW_X_RAND*SNOW_SPEED] = [-32/5, 32/5]`
and yv in `[SNOW_SPEED, 2*SNOW_SPEED] = [8, 16]`. -/
theorem c4_clamp_and_reset (width height : Nat) (dt u1 u2 : ℚ) (p : SnowParticle)
    (hw : 2 ≤ width) (hdt : 0 ≤ dt)
    (hu1a : -SNOW_X_RAND ≤ u1) (hu1b : u1 ≤ SNOW_X_RAND)
    (hu2a : 1 ≤ u2) (hu2b : u2 ≤ 2) :
    (1 ≤ (update_snow_step width height dt (rand_velocity u1 u2) p).x ∧
      (update_snow_step width height dt (rand_velocity u1 u2) p).x ≤ (width : ℚ) - 1) ∧
    ((height : ℚ) ≤ p.y → 0 ≤ p.yv →
      (update_snow_step width height dt (rand_velocity u1 u2) p).y = 1 ∧
      -(32 / 5) ≤ (update_snow_step width height dt (rand_velocity u1 u2) p).xv ∧
      (update_snow_step width height dt (rand_velocity u1 u2) p).xv ≤ 32 / 5 ∧
      8 ≤ (update_snow_step width height dt (rand_velocity u1 u2) p).yv ∧
      (update_snow_step width height dt (rand_velocity u1 u2) p).yv ≤ 16) := by
  have hw2 : (2 : ℚ) ≤ (width : ℚ) := by exact_mod_cast hw
  constructor
  · rw [update_snow_step_x]
    constructor
    · exact le_max_left 1 _
    · exact max_le (by linarith) (min_le_left _ _)
  · intro hy hyv
    have hcross : (height : ℚ) - 1 ≤ p.y + p.yv * dt := by
      have := mul_nonneg hyv hdt
      linarith
    obtain ⟨h1, h2, h3⟩ := update_snow_step_reset width height dt (rand_velocity u1 u2) p hcross
    rw [h1, h2, h3]
    have hxr : -(4 / 5 : ℚ) ≤ u1 := by rw [SNOW_X_RAND] at hu1a; linarith
    have hxr2 : u1 ≤ (4 / 5 : ℚ) := by rw [SNOW_X_RAND] at hu1b; linarith
    refine ⟨rfl, ?_, ?_, ?_, ?_⟩ <;>
      simp only [rand_velocity, SNOW_SPEED] <;> nlinarith

/-- C4 witness: a 10×10 screen, `dt = 0`, samples `u1 = 0`, `u2 = 1`, and
the concrete particle at `(0, 20)` whose y is past the bottom boundary. -/
theorem c4_clamp_and_reset_witness :
    (1 ≤ (update_snow_step 10 10 0 (rand_velocity 0 1) c2Particle).x ∧
      (update_snow_step 10 10 0 (rand_velocity 0 1) c2Particle).x ≤ ((10 : ℕ) : ℚ) - 1) ∧
    (((10 : ℕ) : ℚ) ≤ c2Particle.y → 0 ≤ c2Particle.yv →
      (update_snow_step 10 10 0 (rand_velocity 0 1) c2Particle).y = 1 ∧
      -(32 / 5) ≤ (update_snow_step 10 10 0 (rand_velocity 0 1) c2Particle).xv ∧
      (update_snow_step 10 10 0 (rand_velocity 0 1) c2Particle).xv ≤ 32 / 5 ∧
      8 ≤ (update_snow_step 10 10 0 (rand_velocity 0 1) c2Particle).yv ∧
      (update_snow_step 10 10 0 (rand_velocity 0 1) c2Particle).yv ≤ 16) :=
  c4_clamp_and_reset 10 10 0 0 1 c2Particle (by decide) (by norm_num)
    (by norm_num [SNOW_X_RAND]) (by norm_num [SNOW_X_RAND]) (by norm_num) (by norm_num)

/-- One loop iteration's random draws in `create_snow`:
`x = random.randint(0, width)`, `y = random.randint(0, height)` (both ends
inclusive), the two uniform samples behind `rand_velocity`, and the index
of the `random.choice(COLORS)` pick. -/
structure SnowDraw where
  x : Nat
  y : Nat
  u1 : ℚ
  u2 : ℚ
  colorIdx : Nat
deriving DecidableEq

/-- The constraint the source's random calls place on one iteration's
draws: `randint(0, n)` is inclusive on both ends, `uniform(a, b)` stays in
`[a, b]`, and `choice` picks an index of the palette. -/
def validDraw (width height : Nat) (d : SnowDraw) : Prop :=
  d.x ≤ width ∧ d.y ≤ height ∧
  -SNOW_X_RAND ≤ d.u1 ∧ d.u1 ≤ SNOW_X_RAND ∧
  1 ≤ d.u2 ∧ d.u2 ≤ 2 ∧
  d.colorIdx < COLORS.length

/-- The particle `SnowParticle(0, 0, x, y, xv, yv, color)` one loop
iteration of `create_snow` appends, built from that iteration's draws. -/
def mkParticle (d : SnowDraw) : SnowParticle :=
  ⟨0, 0, (d.x : ℚ), (d.y : ℚ), (rand_velocity d.u1 d.u2).1, (rand_velocity d.u1 d.u2).2,
    COLORS.getD d.colorIdx (0, 0, 0)⟩

/-- The count `create_snow` uses:
`if count is None: count = int(width * height * SNOW_DENSITY)`. -/
def resolveCount (width height : Nat) : Option Nat → Nat
  | some c => c
  | none => (⌊(width : ℚ) * (height : ℚ) * SNOW_DENSITY⌋).toNat

/-- `create_snow(count)`: one particle per loop iteration from the random
draw stream, then `sorted(snow, key=lambda p: p.y)`. -/
def create_snow (width height : Nat) (count : Option Nat) (draws : List SnowDraw) :
    List SnowParticle :=
  ((draws.take (resolveCount width height count)).map mkParticle).mergeSort
    (fun p q => decide (p.y ≤ q.y))

/-- The count the shell passes at session start: `snow = create_snow(100)`. -/
def shell_snow_count : Nat := 100

/-- The draw `x = 80, y = 24` that `random.randint(0, 80)` /
`random.randint(0, 24)` can return on an 80×24 screen. -/
def c3Draw : SnowDraw := ⟨80, 24, 0, 1, 0⟩

/-- C3 counterexample: the shell calls `create_snow` with count 100, not
`round(80*24*0.05) = 96`; and `randint` is inclusive, so a legal draw
places a particle at `x = 80, y = 24`, outside the claimed ranges
`x ∈ [0, 80)`, `y ∈ [0, 24)` — and such a particle really is in the field
`create_snow` returns for a legal draw stream. -/
theorem c3_counterexample :
    shell_snow_count ≠ 96 ∧
    validDraw 80 24 c3Draw ∧
    mkParticle c3Draw ∈
      create_snow 80 24 (some shell_snow_count) (List.replicate 100 c3Draw) ∧
    ¬((mkParticle c3Draw).x < 80) ∧ ¬((mkParticle c3Draw).y < 24) := by
  refine ⟨by decide, ?_, ?_, ?_, ?_⟩
  · norm_num [validDraw, c3Draw, SNOW_X_RAND, COLORS]
  · rw [create_snow, List.mem_mergeSort]
    refine List.mem_map_of_mem mkParticle ?_
    simp [resolveCount, shell_snow_count, List.mem_replicate]
  · norm_num [mkParticle, c3Draw]
  · norm_num [mkParticle, c3Draw]

/-- C3 (amended): the shell calls `create_snow` with count 100; the
density-derived count `int(80*24*0.05) = 96` applies only when count is
None; with enough legal draws the field has exactly 100 particles and
every particle's initial position satisfies `0 ≤ x ≤ 80` and `0 ≤ y ≤ 24`
(both ends inclusive, because `random.randint(0, n)` includes `n`). -/
theorem c3_amended (draws : List SnowDraw)
    (hv : ∀ d ∈ draws, validDraw 80 24 d) (hlen : 100 ≤ draws.length) :
    resolveCount 80 24 none = 96 ∧
    (create_snow 80 24 (some shell_snow_count) draws).length = 100 ∧
    ∀ p ∈ create_snow 80 24 (some shell_snow_count) draws,
      0 ≤ p.x ∧ p.x ≤ 80 ∧ 0 ≤ p.y ∧ p.y ≤ 24 := by
  refine ⟨?_, ?_, ?_⟩
  · norm_num [resolveCount, SNOW_DENSITY]
    decide
  · rw [create_snow, List.length_mergeSort, List.length_map, List.length_take]
    simpa [resolveCount, shell_snow_count] using hlen
  · intro p hp
    rw [create_snow, List.mem_mergeSort] at hp
    rcases List.mem_map.mp hp with ⟨d, hd, rfl⟩
    obtain ⟨h1, h2, -⟩ := hv d (List.mem_of_mem_take hd)
    simp only [mkParticle]
    refine ⟨Nat.cast_nonneg _, by exact_mod_cast h1, Nat.cast_nonneg _, by exact_mod_cast h2⟩

/-- C3 witness: a stream of 100 copies of the legal draw `c3Draw`. -/
theorem c3_amended_witness :
    resolveCount 80 24 none = 96 ∧
    (create_snow 80 24 (some shell_snow_count) (List.replicate 100 c3Draw)).length = 100 ∧
    ∀ p ∈ create_snow 80 24 (some shell_snow_count) (List.replicate 100 c3Draw),
      0 ≤ p.x ∧ p.x ≤ 80 ∧ 0 ≤ p.y ∧ p.y ≤ 24 :=
  c3_amended (List.replicate 100 c3Draw)
    (fun d hd => by
      rw [List.eq_of_mem_replicate hd]
      norm_num [validDraw, c3Draw, SNOW_X_RAND, COLORS])
    (by simp)

/-- Split a character list at every newline character, Python's
`str.split("\n")`: n newlines give n+1 pieces. -/
def splitNl : List Char → List (List Char)
  | [] => [[]]
  | c :: cs =>
    if c = '\n' then [] :: splitNl cs
    else
      match splitNl cs with
      | [] => [[c]]
      | l :: ls => (c :: l) :: ls

/-- Python `str.splitlines()` restricted to `'\n'` line breaks (the only
break the embedded art and speech bubbles contain): like split on
newline, but a trailing newline adds no empty final piece and the empty
string has no lines. -/
def splitlinesPy (s : List Char) : List (List Char) :=
  if s = [] then []
  else if s.getLast? = some '\n' then (splitNl s).dropLast
  else splitNl s

/-- Python `line.strip('\n')`: drop newline characters from both ends. -/
def stripNl (s : List Char) : List Char :=
  ((s.dropWhile (· = '\n')).reverse.dropWhile (· = '\n')).reverse

/-- Greatest element of a list of naturals, 0 for the empty list (where
Python's `max` of an empty sequence would raise `ValueError`). -/
def maxNat : List Nat → Nat
  | [] => 0
  | n :: ns => max n (maxNat ns)

/-- `get_ascii_dimensions(ascii_art)` from `utils.py`: the pair
`(ascii_art.count('\n'),
max(len(line.strip('\n')) for line in ascii_art.splitlines()))`. -/
def get_ascii_dimensions (s : List Char) : Nat × Nat :=
  (s.count '\n', maxNat ((splitlinesPy s).map (fun l => (stripNl l).length)))

/-- Splitting on newlines yields one piece more than the newline count. -/
theorem splitNl_length (s : List Char) : (splitNl s).length = s.count '\n' + 1 := by
  induction s with
  | nil => rfl
  | cons c cs ih =>
    by_cases h : c = '\n'
    · subst h
      simp [splitNl, ih, List.count_cons]
    · simp only [splitNl, if_neg h]
      cases hcs : splitNl cs with
      | nil => rw [hcs] at ih; simp at ih
      | cons l ls =>
        rw [hcs] at ih
        simp only [List.length_cons] at ih ⊢
        simp [List.count_cons, h, ih]

/-- C10: for a nonempty string with no leading or trailing newline,
`get_ascii_dimensions` records as height the number of newline
characters — one less than the number of lines, so a sprite written on
n lines gets height n-1 — and as width the maximum line length. -/
theorem c10_dimensions (s : List Char) (hne : s ≠ [])
    (hhead : s.head? ≠ some '\n') (hlast : s.getLast? ≠ some '\n') :
    (get_ascii_dimensions s).1 = s.count '\n' ∧
    (get_ascii_dimensions s).1 + 1 = (splitlinesPy s).length ∧
    (get_ascii_dimensions s).2
      = maxNat ((splitlinesPy s).map (fun l => (stripNl l).length)) := by
  refine ⟨rfl, ?_, rfl⟩
  show s.count '\n' + 1 = _
  rw [splitlinesPy, if_neg hne, if_neg hlast, splitNl_length]

/-- The `ASC_CAT` art after `AsciiArt.__init__`'s `art.strip("\n")` (the
raw triple-quoted literal starts with a newline, which the strip
removes): the three 7-character lines of the cat. -/
def ASC_CAT_art : List Char := stripNl ("\n /\\_/\\ \n( | | )\n >   < ").data

/-- `ASC_CAT.h`: the first component of `get_ascii_dimensions`. -/
def ASC_CAT_h : Nat := (get_ascii_dimensions ASC_CAT_art).1

/-- `ASC_CAT.w`: the second component of `get_ascii_dimensions`. -/
def ASC_CAT_w : Nat := (get_ascii_dimensions ASC_CAT_art).2

/-- C10 witness: the cat sprite itself — written on 3 lines, stored with
height 2 and width 7. -/
theorem c10_dimensions_witness :
    (get_ascii_dimensions ASC_CAT_art).1 = ASC_CAT_art.count '\n' ∧
    (get_ascii_dimensions ASC_CAT_art).1 + 1 = (splitlinesPy ASC_CAT_art).length ∧
    (get_ascii_dimensions ASC_CAT_art).2
      = maxNat ((splitlinesPy ASC_CAT_art).map (fun l => (stripNl l).length)) :=
  c10_dimensions ASC_CAT_art (by decide) (by decide) (by decide)

/-- `move(delta)`'s update of the cat's x position:
`x = min(max(x + delta, 0), width - ASC_CAT.w)`; the erase escapes the
function then writes touch only the terminal, not the position. -/
def move (width wcat : Nat) (x delta : Int) : Int :=
  min (max (x + delta) 0) ((width : Int) - (wcat : Int))

/-- The shell's initial cat position `x = (width - ASC_CAT.w) // 2`
(Python floor division). -/
def shell_init_x (width : Nat) : Int :=
  Int.fdiv ((width : Int) - (ASC_CAT_w : Int)) 2

/-- The four outcomes of the `match inp:` dispatch in `on_input`. -/
inductive InputAction where
  | moveRight
  | moveLeft
  | quit
  | unknown
deriving DecidableEq

/-- The `match inp:` dispatch of `on_input`: the right-arrow escape or
`d` moves right, the left-arrow escape or `a` moves left, bare Escape,
`q` or Ctrl-C quit, and anything else is logged and ignored. -/
def on_input_action (inp : String) : InputAction :=
  if inp = "\x1b[C" ∨ inp = "d" then .moveRight
  else if inp = "\x1b[D" ∨ inp = "a" then .moveLeft
  else if inp = "\x1b" ∨ inp = "q" ∨ inp = "\x03" then .quit
  else .unknown

/-- The effect of one `on_input` call on the cat's x position (`y` is
never written by `on_input` or `move`). -/
def on_input_x (width wcat : Nat) (x : Int) (inp : String) : Int :=
  match on_input_action inp with
  | .moveRight => move width wcat x 1
  | .moveLeft => move width wcat x (-1)
  | .quit => x
  | .unknown => x

/-- C5 counterexample: the single character `d` is neither a quit token
nor an arrow escape sequence, yet it moves the actor — `on_input` maps it
to a move-right, taking x from 36 to 37 — so arrow sequences are not the
only move inputs and not every other single-character input leaves the
actor unchanged. -/
theorem c5_counterexample :
    on_input_action "d" ≠ InputAction.quit ∧
    ("d" : String) ≠ "\x1b[C" ∧ ("d" : String) ≠ "\x1b[D" ∧
    ("d" : String).length = 1 ∧
    on_input_x 80 7 36 "d" = 37 ∧ (37 : Int) ≠ 36 := by
  decide

/-- C5 (amended): `on_input` maps exactly `q`, bare Escape and Ctrl-C to
quit, exactly the right-arrow escape and `d` to move-right, exactly the
left-arrow escape and `a` to move-left, and every other input token
leaves the actor's position unchanged. -/
theorem c5_amended (inp : String) (width wcat : Nat) (x : Int) :
    (on_input_action inp = InputAction.quit ↔
      inp = "\x1b" ∨ inp = "q" ∨ inp = "\x03") ∧
    (on_input_action inp = InputAction.moveRight ↔ inp = "\x1b[C" ∨ inp = "d") ∧
    (on_input_action inp = InputAction.moveLeft ↔ inp = "\x1b[D" ∨ inp = "a") ∧
    (on_input_action inp = InputAction.unknown → on_input_x width wcat x inp = x) := by
  by_cases h1 : inp = "\x1b[C" ∨ inp = "d"
  · rcases h1 with rfl | rfl <;>
      exact ⟨by decide, by decide, by decide, fun h => absurd h (by decide)⟩
  by_cases h2 : inp = "\x1b[D" ∨ inp = "a"
  · rcases h2 with rfl | rfl <;>
      exact ⟨by decide, by decide, by decide, fun h => absurd h (by decide)⟩
  by_cases h3 : inp = "\x1b" ∨ inp = "q" ∨ inp = "\x03"
  · have ha : on_input_action inp = InputAction.quit := by
      unfold on_input_action
      rw [if_neg h1, if_neg h2, if_pos h3]
    rcases h3 with rfl | rfl | rfl <;>
      exact ⟨by decide, by decide, by decide, fun h => absurd h (by decide)⟩
  · have ha : on_input_action inp = InputAction.unknown := by
      unfold on_input_action
      rw [if_neg h1, if_neg h2, if_neg h3]
    refine ⟨⟨fun h => InputAction.noConfusion (ha.symm.trans h), fun hr => absurd hr h3⟩,
      ⟨fun h => InputAction.noConfusion (ha.symm.trans h), fun hr => absurd hr h1⟩,
      ⟨fun h => InputAction.noConfusion (ha.symm.trans h), fun hr => absurd hr h2⟩,
      fun _ => by simp [on_input_x, ha]⟩

/-- C5 witness: the unrecognized single character `z` and the concrete
shell state width 80, cat width 7, x = 36. -/
theorem c5_amended_witness :
    (on_input_action "z" = InputAction.quit ↔
      ("z" : String) = "\x1b" ∨ ("z" : String) = "q" ∨ ("z" : String) = "\x03") ∧
    (on_input_action "z" = InputAction.moveRight ↔
      ("z" : String) = "\x1b[C" ∨ ("z" : String) = "d") ∧
    (on_input_action "z" = InputAction.moveLeft ↔
      ("z" : String) = "\x1b[D" ∨ ("z" : String) = "a") ∧
    (on_input_action "z" = InputAction.unknown → on_input_x 80 7 36 "z" = 36) :=
  c5_amended "z" 80 7 36

/-- C6 counterexample: the cat sprite is 7 columns wide, not 8, so on an
80-column screen 50 consecutive move-right commands from the initial
x = 36 saturate at `80 - 7 = 73`, not at the claimed 72. -/
theorem c6_counterexample :
    ASC_CAT_w ≠ 8 ∧
    (List.replicate 50 (1 : Int)).foldl (move 80 ASC_CAT_w) (shell_init_x 80) = 73 ∧
    (73 : Int) ≠ 72 := by
  decide

/-- C6 (amended): the actor's x stays in `[0, cols - actor.width]` under
every sequence of move commands; with the actual actor width 7 and
cols = 80 the initial x is `(80 - 7) // 2 = 36`, one move-right yields
37, and 50 consecutive move-rights saturate at `80 - 7 = 73`. -/
theorem c6_amended (width : Nat) (hw : ASC_CAT_w ≤ width) (x0 : Int)
    (hx0a : 0 ≤ x0) (hx0b : x0 ≤ (width : Int) - (ASC_CAT_w : Int)) (ds : List Int) :
    (0 ≤ ds.foldl (move width ASC_CAT_w) x0 ∧
      ds.foldl (move width ASC_CAT_w) x0 ≤ (width : Int) - (ASC_CAT_w : Int)) ∧
    ASC_CAT_w = 7 ∧
    shell_init_x 80 = 36 ∧
    move 80 ASC_CAT_w 36 1 = 37 ∧
    (List.replicate 50 (1 : Int)).foldl (move 80 ASC_CAT_w) (shell_init_x 80) = 73 := by
  refine ⟨?_, by decide, by decide, by decide, by decide⟩
  induction ds generalizing x0 with
  | nil => exact ⟨hx0a, hx0b⟩
  | cons d ds ih =>
    rw [List.foldl_cons]
    apply ih
    · exact le_min (le_max_right _ _)
        (sub_nonneg.mpr (by exact_mod_cast hw))
    · exact min_le_right _ _

/-- C6 witness: the shell's own scenario — 80 columns, initial x 36, one
move right then one move left. -/
theorem c6_amended_witness :
    (0 ≤ ([1, -1] : List Int).foldl (move 80 ASC_CAT_w) 36 ∧
      ([1, -1] : List Int).foldl (move 80 ASC_CAT_w) 36
        ≤ ((80 : Nat) : Int) - (ASC_CAT_w : Int)) ∧
    ASC_CAT_w = 7 ∧
    shell_init_x 80 = 36 ∧
    move 80 ASC_CAT_w 36 1 = 37 ∧
    (List.replicate 50 (1 : Int)).foldl (move 80 ASC_CAT_w) (shell_init_x 80) = 73 :=
  c6_amended 80 (by decide) 36 (by decide) (by decide) [1, -1]

/-- The chunking loop of `relay_stdout` in `relay.py`: scan the child's
byte stream left to right; each `readuntil(b'\00\00\00')` returns the
bytes up to AND INCLUDING the first three-NUL sentinel, which the loop
writes to the telnet transport; the trailing bytes after the last
sentinel are the pending remainder on which `readuntil` raises
`IncompleteReadError`, breaking the loop without a write.  Returns
(chunks written in order, pending remainder). -/
def relayScan : List Nat → List (List Nat) × List Nat
  | [] => ([], [])
  | 0 :: 0 :: 0 :: rest =>
    let r := relayScan rest
    ([0, 0, 0] :: r.1, r.2)
  | b :: bs =>
    let r := relayScan bs
    match r.1 with
    | [] => ([], b :: r.2)
    | c :: cs => ((b :: c) :: cs, r.2)

/-- The chunks `relay_stdout` writes to the telnet transport, in order,
for a complete child output stream. -/
def relay_stdout_writes (stream : List Nat) : List (List Nat) :=
  (relayScan stream).1

/-- `out.decode()` for ASCII bytes: the characters with those codes. -/
def decodeAscii (l : List Nat) : String :=
  String.mk (l.map Char.ofNat)

/-- The bytes `b"hello\0\0\0"` of the relay scenario. -/
def helloBytes : List Nat := [104, 101, 108, 108, 111, 0, 0, 0]

/-- C7 counterexample: when the child emits `b"hello\0\0\0"`, the relay
writes exactly one chunk, but the chunk `readuntil` returns includes the
sentinel, so the text written is `hello\x00\x00\x00`, not the
sentinel-stripped `hello`. -/
theorem c7_counterexample :
    relay_stdout_writes helloBytes = [helloBytes] ∧
    (relay_stdout_writes helloBytes).map decodeAscii = ["hello\x00\x00\x00"] ∧
    ("hello\x00\x00\x00" : String) ≠ "hello" := by
  decide

/-- C7 (amended): for a child stream made of one sentinel-free payload
followed by the three-NUL sentinel, the relay writes exactly once, and
what it writes is the whole chunk with the sentinel still attached
(decoded to text), not the stripped payload. -/
theorem c7_amended (data : List Nat) (h0 : ∀ b ∈ data, b ≠ 0) :
    relay_stdout_writes (data ++ [0, 0, 0]) = [data ++ [0, 0, 0]] ∧
    (relay_stdout_writes (data ++ [0, 0, 0])).map decodeAscii
      = [decodeAscii (data ++ [0, 0, 0])] := by
  have h1 : relay_stdout_writes (data ++ [0, 0, 0]) = [data ++ [0, 0, 0]] := by
    induction data with
    | nil => decide
    | cons b bs ih =>
      have hb : b ≠ 0 := h0 b (by simp)
      have ih2 := ih (fun x hx => h0 x (by simp [hx]))
      cases b with
      | zero => exact absurd rfl hb
      | succ n =>
        show (relayScan ((n + 1) :: (bs ++ [0, 0, 0]))).1 = _
        rw [show relayScan ((n + 1) :: (bs ++ [0, 0, 0]))
              = (match (relayScan (bs ++ [0, 0, 0])).1 with
                 | [] => ([], (n + 1) :: (relayScan (bs ++ [0, 0, 0])).2)
                 | c :: cs => (((n + 1) :: c) :: cs, (relayScan (bs ++ [0, 0, 0])).2))
            from rfl]
        rw [show (relayScan (bs ++ [0, 0, 0])).1
              = relay_stdout_writes (bs ++ [0, 0, 0]) from rfl, ih2]
        rfl
  exact ⟨h1, by rw [h1]; rfl⟩

/-- C7 witness: the payload `hello`. -/
theorem c7_amended_witness :
    relay_stdout_writes ([104, 101, 108, 108, 111] ++ [0, 0, 0])
      = [[104, 101, 108, 108, 111] ++ [0, 0, 0]] ∧
    (relay_stdout_writes ([104, 101, 108, 108, 111] ++ [0, 0, 0])).map decodeAscii
      = [decodeAscii ([104, 101, 108, 108, 111] ++ [0, 0, 0])] :=
  c7_amended [104, 101, 108, 108, 111] (by decide)

/-- Python `str.strip()` on the ASCII whitespace the art and bubble text
contain: drop whitespace characters from both ends. -/
def stripPy (s : List Char) : List Char :=
  ((s.dropWhile Char.isWhitespace).reverse.dropWhile Char.isWhitespace).reverse

/-- The slice loop of `wrap_lines`:
`[line[i:i+max_width] for i in range(0, len(line), max_width)]` — chunks
of at most `max_width` characters; an empty line contributes nothing (a
zero step would raise in Python and never occurs: the only call uses the
default width 30). -/
def chunksOf (n : Nat) (l : List Char) : List (List Char) :=
  if h1 : l = [] then []
  else if h2 : n = 0 then []
  else l.take n :: chunksOf n (l.drop n)
termination_by l.length
decreasing_by
  simp only [List.length_drop]
  have hl : 0 < l.length := List.length_pos.mpr h1
  omega

/-- `wrap_lines(lines, max_width)`: every line cut into chunks, kept in
order. -/
def wrap_lines (maxWidth : Nat) (lines : List (List Char)) : List (List Char) :=
  (lines.map (chunksOf maxWidth)).join

/-- The wrapped text lines `generate_bubble` builds before drawing the
bubble: split on newline, strip each line, drop empty lines, wrap at the
default width 30. -/
def wrappedLines (text : List Char) : List (List Char) :=
  wrap_lines 30 (((splitNl text).map stripPy).filter (fun l => !l.isEmpty))

/-- The top border `"." + "=" * (text_width + 2) + "."`. -/
def bubbleTop (tw : Nat) : List Char :=
  ['.'] ++ List.replicate (tw + 2) '=' ++ ['.']

/-- A body line `"| " + line + " " * (text_width - len(line) + 1) + "|"`;
the natural subtraction `tw + 1 - len` equals Python's
`max(0, text_width - len(line) + 1)` repetitions. -/
def bubbleMid (tw : Nat) (line : List Char) : List Char :=
  ['|', ' '] ++ line ++ List.replicate (tw + 1 - line.length) ' ' ++ ['|']

/-- The bottom border: an apostrophe, `text_width + 2` equals signs, an
apostrophe. -/
def bubbleBot (tw : Nat) : List Char :=
  [Char.ofNat 39] ++ List.replicate (tw + 2) '=' ++ [Char.ofNat 39]

/-- The list of output lines of `generate_bubble(text)`, top border, one
body line per wrapped text line, bottom border; the function returns them
joined with newlines. -/
def generate_bubble_lines (text : List Char) : List (List Char) :=
  bubbleTop (maxNat ((wrappedLines text).map List.length))
    :: ((wrappedLines text).map (bubbleMid (maxNat ((wrappedLines text).map List.length))))
    ++ [bubbleBot (maxNat ((wrappedLines text).map List.length))]

/-- `generate_bubble(text)` itself: the lines joined with `"\n"`. -/
def generate_bubble (text : List Char) : List Char :=
  List.intercalate ['\n'] (generate_bubble_lines text)

/-- Every member of a list of naturals is at most `maxNat` of the list. -/
theorem maxNat_mem {l : List Nat} {n : Nat} (h : n ∈ l) : n ≤ maxNat l := by
  induction l with
  | nil => cases h
  | cons m ms ih =>
    rcases List.mem_cons.mp h with rfl | h2
    · exact le_max_left _ _
    · exact le_trans (ih h2) (le_max_right _ _)

/-- Every chunk `wrap_lines` cuts has at most the wrap width. -/
theorem chunksOf_le (n : Nat) (l : List Char) : ∀ c ∈ chunksOf n l, c.length ≤ n := by
  induction l using chunksOf.induct n with
  | case1 => intro c hc; rw [chunksOf] at hc; simp at hc
  | case2 l h1 h2 => intro c hc; rw [chunksOf, dif_neg h1, dif_pos h2] at hc; cases hc
  | case3 l h1 h2 ih =>
    intro c hc
    rw [chunksOf, dif_neg h1, dif_neg h2] at hc
    rcases List.mem_cons.mp hc with rfl | h3
    · rw [List.length_take]
      exact min_le_left _ _
    · exact ih c h3

/-- C9: for input text with at least one non-blank line, every output
line of `generate_bubble` has the same length — 4 plus the length of the
longest wrapped text line — and every wrapped text line is at most the
default wrap width 30. -/
theorem c9_bubble (text : List Char)
    (h : ∃ l ∈ splitNl text, stripPy l ≠ []) :
    (∀ out ∈ generate_bubble_lines text,
      out.length = 4 + maxNat ((wrappedLines text).map List.length)) ∧
    (∀ l ∈ wrappedLines text, l.length ≤ 30) := by
  constructor
  · intro out hout
    rcases List.mem_cons.mp hout with rfl | h2
    · simp [bubbleTop]
      omega
    rcases List.mem_append.mp h2 with h3 | h3
    · rcases List.mem_map.mp h3 with ⟨line, hline, rfl⟩
      have hle : line.length ≤ maxNat ((wrappedLines text).map List.length) :=
        maxNat_mem (List.mem_map_of_mem List.length hline)
      simp [bubbleMid]
      omega
    · rcases List.mem_singleton.mp h3 with rfl
      simp [bubbleBot]
      omega
  · intro l hl
    rw [wrappedLines, wrap_lines] at hl
    rcases List.mem_join.mp hl with ⟨cs, hcs, hlcs⟩
    rcases List.mem_map.mp hcs with ⟨line, _, rfl⟩
    exact chunksOf_le 30 line l hlcs

/-- C9 witness: the two-line text the shell's cat actually says. -/
theorem c9_bubble_witness :
    (∀ out ∈ generate_bubble_lines ("I hope I can sleep\n on the tree").data,
      out.length = 4 + maxNat ((wrappedLines ("I hope I can sleep\n on the tree").data).map
        List.length)) ∧
    (∀ l ∈ wrappedLines ("I hope I can sleep\n on the tree").data, l.length ≤ 30) :=
  c9_bubble ("I hope I can sleep\n on the tree").data (by decide)

end Tngame
